import Mathlib

/-!
Shallow embedding of the domain-name helpers and the redirect sanitizer of
`src/app/utils.ts` (starchart).

JavaScript strings are modelled as `List Char` (`Str`); the `ROOT_DOMAIN`
environment variable is modelled as an `Option Str` parameter (`none` when the
variable is unset, in which case a template literal renders the JavaScript
value `undefined` as the text `"undefined"`); a thrown error is modelled with
`Except`.
-/

namespace Starchart

/-- JavaScript strings, modelled as lists of characters. -/
abbrev Str := List Char

/-- `const DEFAULT_REDIRECT = '/'` in `src/app/utils.ts`. -/
def DEFAULT_REDIRECT : Str := ['/']

/-- A `FormDataEntryValue | string` value: either a string or a non-string
entry (a `File`). A `null`/`undefined` argument is modelled by wrapping in
`Option`. -/
inductive FormValue where
  | str (s : Str)
  | file
deriving DecidableEq

/-- `safeRedirect(to, defaultRedirect = DEFAULT_REDIRECT)` from
`src/app/utils.ts`: returns `defaultRedirect` when `to` is falsy
(`null`/`undefined`/empty string) or not a string, or when `to` does not
start with `/` or starts with `//`; otherwise returns `to`. -/
def safeRedirect (dest : Option FormValue) (defaultRedirect : Str) : Str :=
  match dest with
  | none => defaultRedirect
  | some FormValue.file => defaultRedirect
  | some (FormValue.str s) =>
    if s.isEmpty then defaultRedirect
    else if !(['/'].isPrefixOf s) || (['/', '/'].isPrefixOf s) then defaultRedirect
    else s

/-- `cleanUsername(username)` from `src/app/utils.ts`:
`username.replace(/\./g, '')`, i.e. remove every `.` character. -/
def cleanUsername (username : Str) : Str :=
  username.filter (fun c => !(c == '.'))

/-- Interpolation of `process.env.ROOT_DOMAIN` in a template literal: the
variable's value when set, the text `"undefined"` when unset. -/
def envRootDomain (rootDomain : Option Str) : Str :=
  match rootDomain with
  | some r => r
  | none => "undefined".toList

/-- `buildUserBaseDomain(username)` from `src/app/utils.ts`:
`` `${cleanUsername(username)}.${process.env.ROOT_DOMAIN}` ``. -/
def buildUserBaseDomain (rootDomain : Option Str) (username : Str) : Str :=
  cleanUsername username ++ '.' :: envRootDomain rootDomain

/-- `buildDomain(username, name?)` from `src/app/utils.ts`: when `name` is
truthy (present and non-empty) return `` `${name}.${buildUserBaseDomain(username)}` ``,
otherwise return `buildUserBaseDomain(username)`. -/
def buildDomain (rootDomain : Option Str) (username : Str) (name : Option Str) : Str :=
  match name with
  | some n =>
    if n.isEmpty then buildUserBaseDomain rootDomain username
    else n ++ '.' :: buildUserBaseDomain rootDomain username
  | none => buildUserBaseDomain rootDomain username

/-- The single error kind thrown by `getSubdomainFromFqdn`
(`new Error(...)`, stating that the fqdn is not a subdomain of the base domain). -/
inductive DomainError where
  | invalidDomain
deriving DecidableEq

/-- `getSubdomainFromFqdn(username, fqdn)` from `src/app/utils.ts`: throw when
`fqdn` does not end with `` `.${baseDomain}` ``, otherwise return
`fqdn.substring(0, fqdn.length - (baseDomain.length + 1))`. -/
def getSubdomainFromFqdn (rootDomain : Option Str) (username : Str) (fqdn : Str) :
    Except DomainError Str :=
  let baseDomain := buildUserBaseDomain rootDomain username
  if !(('.' :: baseDomain).isSuffixOf fqdn) then
    Except.error DomainError.invalidDomain
  else
    Except.ok (fqdn.take (fqdn.length - (baseDomain.length + 1)))

/-- A same-origin path in the sense of the redirect sanitizer: starts with `/`
but not with `//`. -/
def isSameOriginPath (s : Str) : Bool :=
  ['/'].isPrefixOf s && !(['/', '/'].isPrefixOf s)

/-! Helper lemmas shared between the claim theorems. -/

theorem suffix_exists_of_isSuffixOf {l₁ l₂ : Str} (h : l₁.isSuffixOf l₂ = true) :
    ∃ p, l₂ = p ++ l₁ := by
  obtain ⟨p, hp⟩ := List.isSuffixOf_iff_suffix.mp h
  exact ⟨p, hp.symm⟩

theorem take_append_cancel (p s : Str) :
    (p ++ s).take ((p ++ s).length - s.length) = p := by
  have hlen : (p ++ s).length - s.length = p.length := by
    simp [List.length_append]
  rw [hlen]
  exact List.take_left p s

/-- When the suffix test of `getSubdomainFromFqdn` passes, putting the computed
subdomain back in front of the base domain reconstructs the input fqdn. -/
theorem subdomain_rejoin_aux (rd : Option Str) (u fqdn : Str)
    (h : ('.' :: buildUserBaseDomain rd u).isSuffixOf fqdn = true) :
    fqdn.take (fqdn.length - ((buildUserBaseDomain rd u).length + 1)) ++
      '.' :: buildUserBaseDomain rd u = fqdn := by
  obtain ⟨p, hp⟩ := suffix_exists_of_isSuffixOf h
  subst hp
  simp [take_append_cancel p ('.' :: buildUserBaseDomain rd u)]

/-- C1 (counterexample): the round-trip law fails at the empty label. With root
domain `starchart.com` and username `john.smith`, `buildDomain` with the empty
label returns the bare base domain (the empty string is falsy in JavaScript),
and `getSubdomainFromFqdn` then throws instead of returning the empty label. -/
theorem roundtrip_empty_label_fails :
    getSubdomainFromFqdn (some "starchart.com".toList) "john.smith".toList
        (buildDomain (some "starchart.com".toList) "john.smith".toList (some [])) =
        Except.error DomainError.invalidDomain ∧
      getSubdomainFromFqdn (some "starchart.com".toList) "john.smith".toList
          (buildDomain (some "starchart.com".toList) "john.smith".toList (some [])) ≠
        Except.ok ([] : Str) :=
  ⟨rfl, fun h => nomatch h⟩

/-- C1 (amended): for every root domain, username and NON-EMPTY label `n`,
`getSubdomainFromFqdn u (buildDomain u n)` succeeds and returns `n`. -/
theorem roundtrip_label (rd : Option Str) (u n : Str) (h : n ≠ []) :
    getSubdomainFromFqdn rd u (buildDomain rd u (some n)) = Except.ok n := by
  have hne : n.isEmpty = false := by
    cases n with
    | nil => exact absurd rfl h
    | cons c t => rfl
  have hbuild : buildDomain rd u (some n) = n ++ '.' :: buildUserBaseDomain rd u := by
    simp [buildDomain, hne]
  rw [hbuild]
  have hsuf : ('.' :: buildUserBaseDomain rd u).isSuffixOf
      (n ++ '.' :: buildUserBaseDomain rd u) = true :=
    List.isSuffixOf_iff_suffix.mpr ⟨n, rfl⟩
  unfold getSubdomainFromFqdn
  simp only [hsuf, Bool.not_true, Bool.false_eq_true, if_false, ite_false]
  have := take_append_cancel n ('.' :: buildUserBaseDomain rd u)
  simp only [List.length_cons] at this
  simp [this]

/-- C1 witness for the amended round-trip law, at root domain `example.com`,
username `a.b` and label `blog`. -/
theorem roundtrip_label_witness :
    "blog".toList ≠ ([] : Str) ∧
      getSubdomainFromFqdn (some "example.com".toList) "a.b".toList
          (buildDomain (some "example.com".toList) "a.b".toList (some "blog".toList)) =
        Except.ok "blog".toList :=
  ⟨by decide, roundtrip_label (some "example.com".toList) "a.b".toList "blog".toList
    (by decide)⟩

/-- C2: `getSubdomainFromFqdn u fqdn` fails — with the single error kind
`invalidDomain` — exactly when `fqdn` does not end with
`"." ++ buildUserBaseDomain u`. All other operations of the component are
plain `Str`-valued functions with no failure path. -/
theorem getSubdomainFromFqdn_error_iff (rd : Option Str) (u fqdn : Str) :
    getSubdomainFromFqdn rd u fqdn = Except.error DomainError.invalidDomain ↔
      ('.' :: buildUserBaseDomain rd u).isSuffixOf fqdn = false := by
  unfold getSubdomainFromFqdn
  cases h : ('.' :: buildUserBaseDomain rd u).isSuffixOf fqdn <;> simp [h]

/-- C3: when `fqdn` ends with `"." ++ buildUserBaseDomain u`,
`getSubdomainFromFqdn u fqdn` succeeds and returns exactly the prefix of
`fqdn` obtained by plain removal of that trailing suffix: rejoining the
result with the suffix reconstructs `fqdn` character for character. -/
theorem getSubdomainFromFqdn_success (rd : Option Str) (u fqdn : Str)
    (h : ('.' :: buildUserBaseDomain rd u).isSuffixOf fqdn = true) :
    getSubdomainFromFqdn rd u fqdn =
        Except.ok
          (fqdn.take (fqdn.length - ((buildUserBaseDomain rd u).length + 1))) ∧
      fqdn.take (fqdn.length - ((buildUserBaseDomain rd u).length + 1)) ++
        '.' :: buildUserBaseDomain rd u = fqdn := by
  constructor
  · unfold getSubdomainFromFqdn
    simp [h]
  · exact subdomain_rejoin_aux rd u fqdn h

/-- C3 witness at root domain `site.org`, username `carol` and fqdn
`api.carol.site.org`. -/
theorem getSubdomainFromFqdn_success_witness :
    ('.' :: buildUserBaseDomain (some "site.org".toList) "carol".toList).isSuffixOf
        "api.carol.site.org".toList = true ∧
      (getSubdomainFromFqdn (some "site.org".toList) "carol".toList
            "api.carol.site.org".toList =
          Except.ok
            ("api.carol.site.org".toList.take
              ("api.carol.site.org".toList.length -
                ((buildUserBaseDomain (some "site.org".toList) "carol".toList).length +
                  1))) ∧
        "api.carol.site.org".toList.take
            ("api.carol.site.org".toList.length -
              ((buildUserBaseDomain (some "site.org".toList) "carol".toList).length +
                1)) ++
          '.' :: buildUserBaseDomain (some "site.org".toList) "carol".toList =
        "api.carol.site.org".toList) :=
  ⟨by decide,
    getSubdomainFromFqdn_success (some "site.org".toList) "carol".toList
      "api.carol.site.org".toList (by decide)⟩

/-- C4: `buildDomain u (some n)` is `n ++ "." ++ buildUserBaseDomain u` when
`n` is non-empty and `buildUserBaseDomain u` when `n` is empty;
`buildDomain u none` is `buildUserBaseDomain u`; and `buildUserBaseDomain u`
is the dot-stripped username, a dot, and the configured root domain. -/
theorem buildDomain_spec (r u n : Str) :
    buildDomain (some r) u (some n) =
        (if n.isEmpty then buildUserBaseDomain (some r) u
          else n ++ '.' :: buildUserBaseDomain (some r) u) ∧
      buildDomain (some r) u none = buildUserBaseDomain (some r) u ∧
      buildUserBaseDomain (some r) u = cleanUsername u ++ '.' :: r :=
  ⟨rfl, rfl, rfl⟩

/-- C5: `cleanUsername` removes every dot and nothing else: the result
contains no `.` character and its length is the length of the input minus
the number of `.` characters of the input (and it is a total function). -/
theorem cleanUsername_spec (u : Str) :
    '.' ∉ cleanUsername u ∧
      (cleanUsername u).length = u.length - u.count '.' := by
  constructor
  · intro hm
    have := List.mem_filter.mp hm
    simp at this
  · induction u with
    | nil => rfl
    | cons c t ih =>
      by_cases hc : c = '.'
      · subst hc
        have hle := List.count_le_length '.' t
        simp [cleanUsername, List.count_cons] at ih ⊢
        omega
      · have hle := List.count_le_length '.' t
        simp [cleanUsername, List.count_cons, hc] at ih ⊢
        omega

/-- C6: every string produced by `buildDomain` is either exactly the base
domain of the user or a record name followed by a dot and that base domain. -/
theorem buildDomain_shape (rd : Option Str) (u : Str) (n : Option Str) :
    buildDomain rd u n = buildUserBaseDomain rd u ∨
      ∃ m, buildDomain rd u n = m ++ '.' :: buildUserBaseDomain rd u := by
  cases n with
  | none => exact Or.inl rfl
  | some m =>
    by_cases hm : m.isEmpty
    · exact Or.inl (by simp [buildDomain, hm])
    · exact Or.inr ⟨m, by simp [buildDomain, hm]⟩

/-- C7: when the root-domain configuration is unset, `buildUserBaseDomain`
does not fail: it returns the dot-stripped username followed by a dot and the
literal text `undefined` (the JavaScript rendering of the absent value). -/
theorem buildUserBaseDomain_unset_root (u : Str) :
    buildUserBaseDomain none u = cleanUsername u ++ '.' :: "undefined".toList :=
  rfl

/-- C8: concrete case with root domain `starchart.com` and username
`john.smith`: the base domain is `johnsmith.starchart.com`; `buildDomain`
with record name `www` gives `www.johnsmith.starchart.com`;
`getSubdomainFromFqdn` on that fqdn returns `www`; and on
`www.otheruser.starchart.com` it throws the invalid-domain error. -/
theorem concrete_john_smith :
    buildUserBaseDomain (some "starchart.com".toList) "john.smith".toList =
        "johnsmith.starchart.com".toList ∧
      buildDomain (some "starchart.com".toList) "john.smith".toList
          (some "www".toList) =
        "www.johnsmith.starchart.com".toList ∧
      getSubdomainFromFqdn (some "starchart.com".toList) "john.smith".toList
          "www.johnsmith.starchart.com".toList =
        Except.ok "www".toList ∧
      getSubdomainFromFqdn (some "starchart.com".toList) "john.smith".toList
          "www.otheruser.starchart.com".toList =
        Except.error DomainError.invalidDomain :=
  ⟨rfl, rfl, rfl, rfl⟩

/-- C9: whenever `getSubdomainFromFqdn u fqdn` succeeds with result `s`,
rejoining `s` with a dot and the base domain of `u` reconstructs `fqdn`
exactly. -/
theorem getSubdomainFromFqdn_rejoin (rd : Option Str) (u fqdn s : Str)
    (h : getSubdomainFromFqdn rd u fqdn = Except.ok s) :
    s ++ '.' :: buildUserBaseDomain rd u = fqdn := by
  by_cases hs : ('.' :: buildUserBaseDomain rd u).isSuffixOf fqdn = true
  · have hval : s = fqdn.take
        (fqdn.length - ((buildUserBaseDomain rd u).length + 1)) := by
      unfold getSubdomainFromFqdn at h
      simp [hs] at h
      exact h.symm
    rw [hval]
    exact subdomain_rejoin_aux rd u fqdn hs
  · exfalso
    unfold getSubdomainFromFqdn at h
    simp [hs] at h

/-- C9 witness at root domain `root.net`, username `dave` and fqdn
`mail.dave.root.net`. -/
theorem getSubdomainFromFqdn_rejoin_witness :
    getSubdomainFromFqdn (some "root.net".toList) "dave".toList
          "mail.dave.root.net".toList =
        Except.ok "mail".toList ∧
      "mail".toList ++
          '.' :: buildUserBaseDomain (some "root.net".toList) "dave".toList =
        "mail.dave.root.net".toList :=
  ⟨rfl,
    getSubdomainFromFqdn_rejoin (some "root.net".toList) "dave".toList
      "mail.dave.root.net".toList "mail".toList rfl⟩

/-- C10: `safeRedirect` returns the destination exactly when it is a
non-empty string that starts with `/` and does not start with `//`; in every
other case (null or undefined, a non-string form entry, the empty string, an
external or protocol-relative URL) it returns the default, whose configured
value `DEFAULT_REDIRECT` is `/`; consequently the result is a same-origin
path whenever the default is one. -/
theorem safeRedirect_spec (dest : Option FormValue) (d : Str) :
    safeRedirect dest d =
        (match dest with
          | some (FormValue.str s) =>
            if !s.isEmpty && ['/'].isPrefixOf s && !(['/', '/'].isPrefixOf s)
            then s else d
          | some FormValue.file => d
          | none => d) ∧
      DEFAULT_REDIRECT = ['/'] ∧
      isSameOriginPath d ≤ isSameOriginPath (safeRedirect dest d) := by
  refine ⟨?_, rfl, ?_⟩
  · cases dest with
    | none => rfl
    | some v =>
      cases v with
      | file => rfl
      | str s =>
        cases he : s.isEmpty <;>
          cases h1 : ['/'].isPrefixOf s <;>
            cases h2 : ['/', '/'].isPrefixOf s <;>
              simp [safeRedirect, he, h1, h2]
  · cases dest with
    | none => exact le_refl _
    | some v =>
      cases v with
      | file => exact le_refl _
      | str s =>
        cases he : s.isEmpty <;>
          cases h1 : ['/'].isPrefixOf s <;>
            cases h2 : ['/', '/'].isPrefixOf s <;>
              simp [safeRedirect, isSameOriginPath, he, h1, h2]

end Starchart
